import Mathlib

/-!
# Verification of the line-recorder-bot message-processing pipeline

Shallow embedding, in Lean 4, of the core of the `line-recorder-bot-v2`
repository (Cloudflare Workers + Hono + D1 LINE bot): the language
detector and translation orchestrator (`src/services/translator.ts`),
the Gemini model client with its model-rotation/backoff loop
(`GeminiClient.generateText`), the poll flex-message builder
(`src/utils/flexMessages.ts`), the answers-table upsert
(`AnswerRepository.upsert`), the poll-answer parser
(`PollService.handlePollAnswer`), and the webhook ingestion /
postback dispatch handlers (`src/handlers/webhook.ts`).

External effects (the Gemini HTTP API, `Math.random`, D1, the queue,
HMAC-SHA256) are passed in as explicit oracles/parameters; database
tables are lists of rows; every definition mirrors the control flow of
its source function.
-/

namespace LineRecorderBot

/-! ## Language detection (`TranslationService.detectLanguage`)

Source: `src/services/translator.ts`.  The detector tests the regex
`/[぀-ゟ゠-ヿ一-龯]/` (Japanese hiragana,
katakana, common ideographs), then `/[ąćęłńóśźżĄĆĘŁŃÓŚŹŻ]/`
(Polish diacritics), defaulting to English. -/

/-- Return type of `detectLanguage` (`'ja' | 'pl' | 'en'` in the source). -/
inductive Lang
  | ja
  | pl
  | en
deriving DecidableEq, Repr

/-- One character of the Japanese indicator class from the source regex:
hiragana U+3040..U+309F, katakana U+30A0..U+30FF, or a common
ideograph U+4E00..U+9FAF. -/
def isJapaneseChar (c : Char) : Bool :=
  (0x3040 ≤ c.toNat && c.toNat ≤ 0x309F) ||
  (0x30A0 ≤ c.toNat && c.toNat ≤ 0x30FF) ||
  (0x4E00 ≤ c.toNat && c.toNat ≤ 0x9FAF)

/-- The Polish-diacritic characters of the source regex. -/
def polishDiacritics : List Char :=
  ['ą', 'ć', 'ę', 'ł', 'ń', 'ó', 'ś', 'ź', 'ż',
   'Ą', 'Ć', 'Ę', 'Ł', 'Ń', 'Ó', 'Ś', 'Ź', 'Ż']

/-- Membership in the Polish-diacritic class. -/
def isPolishChar (c : Char) : Bool :=
  decide (c ∈ polishDiacritics)

/-- `TranslationService.detectLanguage`: Japanese wins, then Polish,
defaulting to English. -/
def detectLanguage (text : String) : Lang :=
  if text.data.any isJapaneseChar then .ja
  else if text.data.any isPolishChar then .pl
  else .en

/-! ## The posts table and its context queries

Source: `PostRepository` (rows of the `posts` D1 table, per
`src/types/db.ts`) and `TranslationService.getContext`.  Timestamps are
ISO-8601 strings ordered lexicographically, which is exactly how SQLite
orders its TEXT `timestamp` column. -/

/-- A row of the `posts` table (`Post` in `src/types/db.ts`). -/
structure Post where
  post_id : String
  timestamp : String
  user_id : String
  room_id : Option String
  message_text : Option String
  has_poll : Nat
  translated_text : Option String
deriving DecidableEq, Repr

/-- Insert a post into a list that is sorted by descending timestamp,
keeping it sorted (model of `ORDER BY timestamp DESC`).  Timestamps are
ISO-8601 strings compared lexicographically on their character lists —
`String.lt` is by definition the lexicographic order on `.data`, and it
matches how SQLite orders the TEXT `timestamp` column. -/
def insertDesc (p : Post) : List Post → List Post
  | [] => [p]
  | q :: qs =>
    if q.timestamp.data < p.timestamp.data then p :: q :: qs else q :: insertDesc p qs

/-- Sort a list of posts by descending timestamp: the order in which
`SELECT ... ORDER BY timestamp DESC` returns rows. -/
def sortByTimestampDesc (l : List Post) : List Post :=
  l.foldr insertDesc []

/-- `PostRepository.findLatestPostsByRoomId`:
`SELECT * FROM posts WHERE room_id = ? ORDER BY timestamp DESC LIMIT ?`. -/
def findLatestPostsByRoomId (roomId : String) (limit : Nat) (posts : List Post) : List Post :=
  (sortByTimestampDesc (posts.filter (fun p => decide (p.room_id = some roomId)))).take limit

/-- `PostRepository.findLatestPostsByUserId`:
`SELECT * FROM posts WHERE user_id = ? AND room_id IS NULL
ORDER BY timestamp DESC LIMIT ?`. -/
def findLatestPostsByUserId (userId : String) (limit : Nat) (posts : List Post) : List Post :=
  (sortByTimestampDesc
    (posts.filter (fun p => decide (p.user_id = userId ∧ p.room_id = none)))).take limit

/-- `TranslationService.getContext` with `CONTEXT_LIMIT = 2`.  The JS
guard `if (roomId)` is truthiness: a `null` room id — and also the
degenerate empty-string id — fall to the per-user branch. -/
def getContext (userId : String) (roomId : Option String) (posts : List Post) : List Post :=
  match roomId with
  | some r => if r = "" then findLatestPostsByUserId userId 2 posts
              else findLatestPostsByRoomId r 2 posts
  | none => findLatestPostsByUserId userId 2 posts

/-! ## Prompt construction (`TranslationService.createTranslationPrompt`)

The prompt is one string built by successive `prompt +=` statements; we
mirror it as the concatenation of the same blocks in the same order. -/

/-- The role/format header: for a Japanese source the single prompt asks
for BOTH an English and a Polish translation; otherwise it asks for a
Japanese translation. -/
def promptHeader (sourceLang : Lang) : String :=
  if sourceLang = .ja then
    "あなたはプロの通訳アシスタントです。以下の日本語テキストを「英語」と「ポーランド語」の両方に翻訳してください。\n\n【出力形式】\nPolish: [ポーランド語の翻訳結果]\nEnglish: [英語の翻訳結果]\n\n"
  else
    "あなたはプロの通訳アシスタントです。以下のテキストを自然な日本語に翻訳してください。\n\n"

/-- The numbered context turns: `(index + 1) + '. ' + message_text + '\n'`
for each post, in list order. -/
def renderTurns (posts : List Post) : String :=
  String.join (posts.enum.map
    (fun ip => toString (ip.1 + 1) ++ ". " ++ ip.2.message_text.getD "" ++ "\n"))

/-- The context block: present only when the context is non-empty; the
stored (newest-first) context is reversed to chronological order before
being rendered. -/
def contextBlock (context : List Post) : String :=
  if context.length > 0 then
    "【会話の文脈】\n以下は過去のユーザーの発言です。代名詞や省略表現を翻訳する際の参考にしてください。\n\n"
      ++ renderTurns context.reverse ++ "\n"
  else ""

/-- The block quoting the text to translate. -/
def targetBlock (messageText : String) : String :=
  "【翻訳対象】\n" ++ messageText ++ "\n\n"

/-- The fixed style directives. -/
def instrBlock : String :=
  "【指示】\n- 翻訳結果のみを出力してください（説明や追加情報は不要）\n- 子供バレエ教室のチャットでのメッセージです。バレエ用語は正しく訳してください。ポーランド語は先生で、日本語は生徒の保護者です。バレエ教室の先生とのやりとりとして自然な文章にしてください。\n- 原文に含まれるニュアンス（感情、皮肉、丁寧さの度合い、ユーモアなど）を鋭敏に汲み取り、それをターゲット言語で適切に表現してください。直訳よりも、この「空気感」の再現を優先してください。\n- ポーランド人が言葉に込める親密さを表現してください\n- 翻訳した文章が長くなっても構いませんので、元の文章の意図が完全に伝わるようにしてください\n"

/-- The trailing pronoun note, present only when context exists. -/
def contextNote (context : List Post) : String :=
  if context.length > 0 then
    "- 代名詞や省略表現は、上記の文脈を考慮して適切に翻訳してください\n"
  else ""

/-- `TranslationService.createTranslationPrompt`: the `prompt +=`
sequence, as the concatenation of its blocks in source order. -/
def createTranslationPrompt (messageText : String) (context : List Post)
    (sourceLang : Lang) : String :=
  promptHeader sourceLang ++ (contextBlock context ++ (targetBlock messageText
    ++ (instrBlock ++ contextNote context)))

/-! ## The translation orchestrator (`TranslationService.translateMessage`) -/

/-- One row of the `translation_logs` table as written by
`translateMessage` (timestamp and autoincrement id elided). -/
structure TranslationLogEntry where
  user_id : String
  language : Lang
  original_message : String
  translation : String
  prompt : String
  history_count : Nat
deriving DecidableEq, Repr

/-- Observable outcome of one `translateMessage` call: the prompts sent
to the Gemini client (in order), whether the unsupported-language early
return was taken, the returned value, the translation-log rows written,
the `translated_text` update performed, and whether a debug-log row was
written on failure. -/
structure TranslateOutcome where
  skipped : Bool
  geminiCalls : List String
  result : Option String
  translationLogs : List TranslationLogEntry
  updatedTranslatedText : Option (String × String)
  debugLogged : Bool
deriving DecidableEq, Repr

/-- `TranslationService.translateMessage`.  `gemini` is the
`GeminiClient.generateText` call viewed as an oracle from the prompt to
either a translated text or a thrown error. -/
def translateMessage (gemini : String → Except String String)
    (postId userId : String) (roomId : Option String) (messageText : String)
    (posts : List Post) : TranslateOutcome :=
  let sourceLang := detectLanguage messageText
  if sourceLang ≠ .ja ∧ sourceLang ≠ .en ∧ sourceLang ≠ .pl then
    { skipped := true, geminiCalls := [], result := none,
      translationLogs := [], updatedTranslatedText := none, debugLogged := false }
  else
    let context := getContext userId roomId posts
    let prompt := createTranslationPrompt messageText context sourceLang
    match gemini prompt with
    | .ok translatedText =>
        { skipped := false, geminiCalls := [prompt], result := some translatedText,
          translationLogs :=
            [⟨userId, sourceLang, messageText, translatedText, prompt, context.length⟩],
          updatedTranslatedText := some (postId, translatedText), debugLogged := false }
    | .error _ =>
        { skipped := false, geminiCalls := [prompt], result := none,
          translationLogs := [], updatedTranslatedText := none, debugLogged := true }

/-! ## The answers table and `AnswerRepository.upsert`

Source: `AnswerRepository` over the `answers` D1 table, whose schema
declares `UNIQUE(poll_post_id, user_id)`.  The upsert is
`INSERT ... ON CONFLICT(poll_post_id, user_id) DO UPDATE SET
timestamp = EXCLUDED.timestamp, answer_value = EXCLUDED.answer_value`:
on conflict the existing row keeps its `answer_id` and takes the new
timestamp and answer value. -/

/-- A row of the `answers` table (`Answer` in `src/types/db.ts`). -/
structure Answer where
  answer_id : String
  timestamp : String
  poll_post_id : String
  user_id : String
  answer_value : Option String
deriving DecidableEq, Repr

/-- The natural key of a vote row: `(poll_post_id, user_id)`. -/
def voteKey (r : Answer) : String × String :=
  (r.poll_post_id, r.user_id)

/-- `AnswerRepository.upsert`.  The incoming row's `answer_id` is a
fresh UUID, so the only conflict the insert can hit is the
`(poll_post_id, user_id)` uniqueness constraint; on that conflict the
conflicting row is updated in place. -/
def answersUpsert (a : Answer) (tbl : List Answer) : List Answer :=
  if tbl.any (fun r => decide (voteKey r = voteKey a)) then
    tbl.map (fun r =>
      if voteKey r = voteKey a then
        { r with timestamp := a.timestamp, answer_value := a.answer_value }
      else r)
  else
    tbl ++ [a]

/-! ## Query-string parsing (`new URLSearchParams(data)`)

Both vote handlers resolve fields of the postback `data` string with
`new URLSearchParams(data).get(key)`.  We model the generic
query-string parser: split on `&`, drop empty segments, split each
segment at its first `=` (a segment without `=` maps to the empty
value), `get` returns the first binding or `null`.  The wire strings of
this bot contain neither `%` escapes nor `+`, so percent-decoding is
the identity on them and is omitted. -/

/-- Split a character list at each `&` (boundaries kept as empty groups). -/
def splitOnAmp : List Char → List (List Char)
  | [] => [[]]
  | c :: cs =>
    if c = '&' then [] :: splitOnAmp cs
    else (c :: (splitOnAmp cs).headD []) :: (splitOnAmp cs).tail

/-- Split a segment at its first `=` into key and value; a segment
without `=` is a key with empty value. -/
def splitFirstEq : List Char → List Char × List Char
  | [] => ([], [])
  | c :: cs =>
    if c = '=' then ([], cs)
    else ((c :: (splitFirstEq cs).1), (splitFirstEq cs).2)

/-- The ordered key/value bindings of a query string. -/
def queryPairs (s : String) : List (String × String) :=
  ((splitOnAmp s.data).filter (fun g => decide (g ≠ []))).map
    (fun g => (String.mk (splitFirstEq g).1, String.mk (splitFirstEq g).2))

/-- `URLSearchParams.get`: the first binding of the key, or `null`. -/
def queryGet (s k : String) : Option String :=
  ((queryPairs s).find? (fun p => decide (p.1 = k))).map (fun p => p.2)

/-- JS truthiness of a `URLSearchParams.get` result: `null` and the
empty string are falsy. -/
def isTruthy : Option String → Bool
  | none => false
  | some s => decide (s ≠ "")

/-! ## `PollService.handlePollAnswer`

Source: `src/services/poll.ts`.  Parses `postId` and `answer` from the
action string and throws `Invalid poll answer data.` when either is
missing (or empty — JS falsiness); otherwise upserts a fresh row keyed
by `(postId, userId)`.  The generated UUID and the current time are
passed in as `answerId`/`timestamp`. -/

def handlePollAnswer (userId : String) (data : String)
    (answerId timestamp : String) (tbl : List Answer) :
    Except String (List Answer) :=
  let postId := queryGet data "postId"
  let answerValue := queryGet data "answer"
  if isTruthy postId ∧ isTruthy answerValue then
    .ok (answersUpsert
      ⟨answerId, timestamp, postId.getD "", userId, some (answerValue.getD "")⟩ tbl)
  else
    .error "Invalid poll answer data."

/-! ## The poll reply payload (`createPollFlexMessage`)

Source: `src/utils/flexMessages.ts`.  We keep the observable parts of
the flex bubble: the alt text, the body text, the three postback
choice buttons (label + postback `data` string, in order), and the
results-link button. -/

/-- A postback button: its label and its opaque `data` action string. -/
structure PostbackAction where
  label : String
  data : String
deriving DecidableEq, Repr

/-- The poll flex message, reduced to its observable payload. -/
structure PollFlexMessage where
  altText : String
  bodyText : String
  choiceActions : List PostbackAction
  linkLabel : String
  linkUri : String
deriving DecidableEq, Repr

/-- `createPollFlexMessage(originalPostId, baseUrl)`. -/
def createPollFlexMessage (originalPostId : String) (baseUrl : String) : PollFlexMessage :=
  { altText := "アンケート",
    bodyText := "Select one. Can be changed.",
    choiceActions :=
      [⟨"OK", "action=answer&value=OK&postId=" ++ originalPostId⟩,
       ⟨"NG", "action=answer&value=NG&postId=" ++ originalPostId⟩,
       ⟨"N/A", "action=answer&value=N/A&postId=" ++ originalPostId⟩],
    linkLabel := "See results",
    linkUri := baseUrl ++ "/poll/" ++ originalPostId }

/-! ## The postback dispatcher (`LineWebhookHandler.handlePostbackEvent`)

Source: `src/handlers/webhook.ts`.  Parses the postback `data` with
`URLSearchParams`; acts only when `action === 'answer'`, the event has
a truthy user id (`if (!userId) return;` — a missing and an
empty-string user id both return early, by JS falsiness), and both
`value` and `postId` are truthy, in which case it shows a loading
animation and upserts the vote.  In every other case it returns without
recording anything and without raising any error. -/

/-- Observable outcome of `handlePostbackEvent`: the answers table
afterwards, whether a vote row was upserted, and whether the loading
animation was triggered. -/
structure PostbackOutcome where
  table : List Answer
  recorded : Bool
  loadingShown : Bool
deriving DecidableEq, Repr

/-- `LineWebhookHandler.handlePostbackEvent`.  `answerId` models the
fresh `crypto.randomUUID()` and `timestamp` the event timestamp. -/
def handlePostbackEvent (userId : Option String) (data : String)
    (answerId timestamp : String) (tbl : List Answer) : PostbackOutcome :=
  if queryGet data "action" = some "answer" then
    match userId with
    | none => ⟨tbl, false, false⟩
    | some u =>
      if u = "" then ⟨tbl, false, false⟩
      else
        let value := queryGet data "value"
        let pollPostId := queryGet data "postId"
        if isTruthy value ∧ isTruthy pollPostId then
          ⟨answersUpsert
              ⟨answerId, timestamp, pollPostId.getD "", u, some (value.getD "")⟩ tbl,
            true, true⟩
        else ⟨tbl, false, false⟩
  else ⟨tbl, false, false⟩

/-! ## The ingestion gateway (`LineWebhookHandler.handleWebhook`)

Source: `src/handlers/webhook.ts` and `LineClient.validateSignature`
(`src/services/line.ts`).  The Web-Crypto HMAC-SHA256-then-base64
computation is abstracted as the parameter `hmacBase64 secret body`;
`JSON.parse(body).events` is abstracted as the `events` list. -/

/-- The configuration the gateway reads from the worker environment. -/
structure WebhookEnv where
  bypassLineValidation : Option String
  channelSecret : String

/-- One parsed webhook event, reduced to what the gateway inspects:
its `type` discriminant and `source.userId`. -/
structure WebhookEvent where
  eventType : String
  sourceUserId : Option String
deriving DecidableEq, Repr

/-- `LineClient.validateSignature`: `true` under the bypass flag,
otherwise a comparison of the base64 HMAC-SHA256 of the raw body
(under the channel secret) with the header value. -/
def validateSignature (hmacBase64 : String → String → String)
    (env : WebhookEnv) (signature body : String) : Bool :=
  if env.bypassLineValidation = some "true" then true
  else decide (hmacBase64 env.channelSecret body = signature)

/-- The gateway's observable response: HTTP status, JSON body, the
events sent to the queue (in order), and the user ids for which the
best-effort loading animation was attempted. -/
structure WebhookResponse where
  status : Nat
  bodyJson : String
  queued : List WebhookEvent
  loadingFor : List String
deriving DecidableEq, Repr

/-- The `200 {"message":"ok"}` response body. -/
def okJson : String := "\x7b\x22message\x22:\x22ok\x22\x7d"

/-- The per-event loop of `handleWebhook`: a loading animation for each
message event whose `source.userId` is truthy (present and non-empty,
mirroring `event.source && event.source.userId`), then a queue send for
every event (send failures are logged and skipped, never surfacing). -/
def webhookProcess (events : List WebhookEvent) : WebhookResponse :=
  { status := 200, bodyJson := okJson, queued := events,
    loadingFor := events.filterMap
      (fun e =>
        if e.eventType = "message" then
          match e.sourceUserId with
          | some uid => if uid = "" then none else some uid
          | none => none
        else none) }

/-- `LineWebhookHandler.handleWebhook`: when the bypass flag is not the
string `"true"`, a missing `X-Line-Signature` header is a 400 and a
failed signature check a 401, both before anything is enqueued; only a
passing check reaches the per-event loop. -/
def handleWebhook (hmacBase64 : String → String → String) (env : WebhookEnv)
    (signature : Option String) (body : String)
    (events : List WebhookEvent) : WebhookResponse :=
  if env.bypassLineValidation ≠ some "true" then
    match signature with
    | none =>
      { status := 400,
        bodyJson := "Bad Request: X-Line-Signature header is missing.",
        queued := [], loadingFor := [] }
    | some sig =>
      if validateSignature hmacBase64 env sig body then
        webhookProcess events
      else
        { status := 401, bodyJson := "Unauthorized: Invalid LINE signature.",
          queued := [], loadingFor := [] }
  else
    webhookProcess events

/-! ## The Gemini model client (`GeminiClient.generateText`)

Source: the `GeminiClient` with model rotation.  The client walks the
fixed model list; per model it makes up to `retries` attempts.  In the
catch block: a 429 breaks to the next model; a 503 with attempts
remaining sleeps `Math.floor(Math.random() * 3001) + 2000` ms and
retries the same model; a 500 with attempts remaining sleeps
`2^attempt * 1000` ms and retries the same model; any other error
(including the synthetic `Gemini API did not return text.` thrown on an
empty response) is rethrown immediately.  After the inner loop, a
`lastError` whose status is 429 moves on to the next model; any other
`lastError` is thrown.

The HTTP outcomes of the individual calls are an oracle indexed by
model name and 0-based attempt index; `Math.random` is an oracle
yielding a rational in `[0,1)`. -/

/-- Outcome of one `chat.sendMessage` call: a returned text (possibly
empty), an error carrying `response.status`, or an error without one. -/
inductive CallOutcome
  | text (t : String)
  | httpError (status : Nat)
  | otherError
deriving DecidableEq, Repr

/-- A thrown/caught error object, identified by its `response?.status`
and the model/attempt at which it arose (`none` status for errors with
no HTTP status, such as the empty-text error). -/
structure ApiError where
  status : Option Nat
  model : String
  attempt : Nat
deriving DecidableEq, Repr

/-- One entry of the call trace: the model and 0-based attempt index of
an API call, its outcome, and the backoff delay (in ms) slept after it,
if any. -/
structure AttemptRec where
  model : String
  attempt : Nat
  outcome : CallOutcome
  delayAfter : Option Nat
deriving DecidableEq, Repr

/-- The 503 jitter delay: `Math.floor(Math.random() * 3001) + 2000`. -/
def delay503 (q : ℚ) : Nat :=
  (Int.floor (q * 3001)).toNat + 2000

/-- The 500 exponential backoff: `Math.pow(2, i) * 1000`. -/
def delay500 (i : Nat) : Nat :=
  2 ^ i * 1000

/-- How the per-model retry loop ends: an early `return text`, an
immediate rethrow of a non-retryable error, or falling through to the
code after the loop with the current `lastError` (reached both by the
429 `break` and by exhausting the attempts). -/
inductive InnerResult
  | returned (t : String)
  | threw (e : ApiError)
  | doneLoop (lastError : Option ApiError)
deriving DecidableEq, Repr

/-- The inner `for (let i = 0; i < retries; i++)` loop of
`generateText`, for one model.  Arguments: the current attempt index
`i`, the remaining attempt count `rem` (so the source guard
`i < retries - 1` is `rem > 0` here), and the current `lastError`
(which survives from earlier models).  Also returns the attempt
trace. -/
def innerLoop (oracle : String → Nat → CallOutcome) (rand : String → Nat → ℚ)
    (modelName : String) :
    Nat → Nat → Option ApiError → InnerResult × List AttemptRec
  | _, 0, le => (.doneLoop le, [])
  | i, rem + 1, _ =>
    match oracle modelName i with
    | .text t =>
      if t = "" then
        (.threw ⟨none, modelName, i⟩, [⟨modelName, i, .text t, none⟩])
      else
        (.returned t, [⟨modelName, i, .text t, none⟩])
    | .httpError s =>
      if s = 429 then
        (.doneLoop (some ⟨some s, modelName, i⟩), [⟨modelName, i, .httpError s, none⟩])
      else if s = 503 then
        if rem > 0 then
          let next := innerLoop oracle rand modelName (i + 1) rem (some ⟨some s, modelName, i⟩)
          (next.1, ⟨modelName, i, .httpError s, some (delay503 (rand modelName i))⟩ :: next.2)
        else
          (.doneLoop (some ⟨some s, modelName, i⟩), [⟨modelName, i, .httpError s, none⟩])
      else if s = 500 then
        if rem > 0 then
          let next := innerLoop oracle rand modelName (i + 1) rem (some ⟨some s, modelName, i⟩)
          (next.1, ⟨modelName, i, .httpError s, some (delay500 i)⟩ :: next.2)
        else
          (.doneLoop (some ⟨some s, modelName, i⟩), [⟨modelName, i, .httpError s, none⟩])
      else
        (.threw ⟨some s, modelName, i⟩, [⟨modelName, i, .httpError s, none⟩])
    | .otherError =>
      (.threw ⟨none, modelName, i⟩, [⟨modelName, i, .otherError, none⟩])

/-- The ordered model list `GEMINI_MODELS`. -/
def geminiModels : List String :=
  ["gemini-2.5-flash-lite", "gemini-2.5-flash", "gemini-3-flash-preview", "gemma-3-27b-it"]

/-- Result of `generateText`: the returned text, or the thrown error
(`thrown none` models the final `throw lastError || new Error(...)`
fallback reached with no recorded error). -/
inductive GenResult
  | success (t : String)
  | thrown (e : Option ApiError)
deriving DecidableEq, Repr

/-- The outer `for (const modelName of GEMINI_MODELS)` loop: run the
inner loop for each model; after it, a `lastError` with status 429
continues with the next model, and any other `lastError` is thrown. -/
def generateTextGo (oracle : String → Nat → CallOutcome) (rand : String → Nat → ℚ)
    (retries : Nat) :
    List String → Option ApiError → GenResult × List AttemptRec
  | [], le => (.thrown le, [])
  | m :: rest, le =>
    let r := innerLoop oracle rand m 0 retries le
    match r.1 with
    | .returned t => (.success t, r.2)
    | .threw e => (.thrown (some e), r.2)
    | .doneLoop le2 =>
      match le2 with
      | some e =>
        if e.status = some 429 then
          let next := generateTextGo oracle rand retries rest (some e)
          (next.1, r.2 ++ next.2)
        else
          (.thrown (some e), r.2)
      | none => (.thrown none, r.2)

/-- `GeminiClient.generateText` (the `retries` parameter defaults to 3
at the call sites). -/
def generateText (oracle : String → Nat → CallOutcome) (rand : String → Nat → ℚ)
    (retries : Nat) : GenResult × List AttemptRec :=
  generateTextGo oracle rand retries geminiModels none

/-! ## Supporting lemmas -/

/-- A character below ASCII 128 is in none of the detector's indicator
classes. -/
lemma ascii_not_indicator (c : Char) (h : c.toNat < 128) :
    isJapaneseChar c = false ∧ isPolishChar c = false := by
  constructor
  · simp only [isJapaneseChar, Bool.or_eq_false_iff, Bool.and_eq_false_iff,
      decide_eq_false_iff_not, not_le]
    omega
  · simp only [isPolishChar, decide_eq_false_iff_not]
    intro hmem
    simp only [polishDiacritics, List.mem_cons, List.not_mem_nil, or_false] at hmem
    rcases hmem with rfl | rfl | rfl | rfl | rfl | rfl | rfl | rfl | rfl | rfl | rfl
      | rfl | rfl | rfl | rfl | rfl | rfl | rfl <;> exact absurd h (by decide)

/-! ## C8: the order-sensitive language classifier -/

/-- C8.  `detectLanguage` is the order-sensitive classifier: any text
with a Japanese syllabary/ideograph character is `ja` regardless of
other characters; otherwise a Polish diacritic makes it `pl`; otherwise
it is `en` — in particular, any text of characters below ASCII 128
(which covers Latin letters and ASCII punctuation) is `en`. -/
theorem detectLanguage_spec (text : String) :
    ((∃ c ∈ text.data, isJapaneseChar c = true) → detectLanguage text = .ja) ∧
    ((∀ c ∈ text.data, isJapaneseChar c = false) →
      (∃ c ∈ text.data, isPolishChar c = true) → detectLanguage text = .pl) ∧
    ((∀ c ∈ text.data, isJapaneseChar c = false) →
      (∀ c ∈ text.data, isPolishChar c = false) → detectLanguage text = .en) ∧
    ((∀ c ∈ text.data, c.toNat < 128) → detectLanguage text = .en) := by
  refine ⟨fun hja => ?_, fun hnja hpl => ?_, fun hnja hnpl => ?_, fun hascii => ?_⟩
  · simp only [detectLanguage, List.any_eq_true]
    rw [if_pos]
    exact hja
  · have h1 : text.data.any isJapaneseChar = false := by
      simp only [List.any_eq_false]
      intro c hc
      simp [hnja c hc]
    have h2 : text.data.any isPolishChar = true := List.any_eq_true.mpr hpl
    simp [detectLanguage, h1, h2]
  · have h1 : text.data.any isJapaneseChar = false := by
      simp only [List.any_eq_false]
      intro c hc
      simp [hnja c hc]
    have h2 : text.data.any isPolishChar = false := by
      simp only [List.any_eq_false]
      intro c hc
      simp [hnpl c hc]
    simp [detectLanguage, h1, h2]
  · have h1 : text.data.any isJapaneseChar = false := by
      simp only [List.any_eq_false]
      intro c hc
      simp [(ascii_not_indicator c (hascii c hc)).1]
    have h2 : text.data.any isPolishChar = false := by
      simp only [List.any_eq_false]
      intro c hc
      simp [(ascii_not_indicator c (hascii c hc)).2]
    simp [detectLanguage, h1, h2]

/-- Witness for C8 at concrete inputs of each class. -/
theorem detectLanguage_spec_witness :
    detectLanguage "Hello, world!" = .en ∧
    detectLanguage "Dzien dobry łódź" = .pl ∧
    detectLanguage "こんにちは łódź Hello!" = .ja := by
  refine ⟨(detectLanguage_spec "Hello, world!").2.2.2 (by decide),
    (detectLanguage_spec "Dzien dobry łódź").2.1 (by decide) (by decide),
    (detectLanguage_spec "こんにちは łódź Hello!").1 (by decide)⟩

/-! ## C10: the unsupported-language early return is unreachable -/

/-- C10.  `detectLanguage` always returns one of `ja`/`pl`/`en`, so
`translateMessage`'s unsupported-language early return is never taken:
for every input the method builds a prompt and makes its Model Client
call. -/
theorem translateMessage_never_skips :
    (∀ text, detectLanguage text = .ja ∨ detectLanguage text = .pl ∨
      detectLanguage text = .en) ∧
    ∀ gemini postId userId roomId messageText posts,
      (translateMessage gemini postId userId roomId messageText posts).skipped = false ∧
      (translateMessage gemini postId userId roomId messageText
        posts).geminiCalls.length = 1 := by
  constructor
  · intro text
    cases h : detectLanguage text
    · exact Or.inl rfl
    · exact Or.inr (Or.inl rfl)
    · exact Or.inr (Or.inr rfl)
  · intro gemini postId userId roomId messageText posts
    unfold translateMessage
    have hguard : ¬ (detectLanguage messageText ≠ .ja ∧
        detectLanguage messageText ≠ .en ∧ detectLanguage messageText ≠ .pl) := by
      cases detectLanguage messageText <;> simp
    rw [if_neg hguard]
    cases hg : gemini (createTranslationPrompt messageText
      (getContext userId roomId posts) (detectLanguage messageText)) <;> simp [hg]

/-! ## C2: one Model Client call per message -/

/-- C2 (amended).  For every inbound text message the orchestrator makes
exactly one Model Client call, whose prompt is a single string; when the
detected language is `ja` the prompt's header requests BOTH the English
and the Polish translation in one output, and for any other detected
language it requests the Japanese translation.  There is no per-target
fan-out. -/
theorem translateMessage_one_call (gemini : String → Except String String)
    (postId userId : String) (roomId : Option String) (messageText : String)
    (posts : List Post) :
    ((translateMessage gemini postId userId roomId messageText posts).geminiCalls
      = [createTranslationPrompt messageText (getContext userId roomId posts)
          (detectLanguage messageText)]) ∧
    (∀ m ctx l, createTranslationPrompt m ctx l
      = promptHeader l ++ (contextBlock ctx ++ (targetBlock m
          ++ (instrBlock ++ contextNote ctx)))) ∧
    promptHeader .ja =
      "あなたはプロの通訳アシスタントです。以下の日本語テキストを「英語」と「ポーランド語」の両方に翻訳してください。\n\n【出力形式】\nPolish: [ポーランド語の翻訳結果]\nEnglish: [英語の翻訳結果]\n\n" ∧
    ∀ l, l ≠ Lang.ja → promptHeader l =
      "あなたはプロの通訳アシスタントです。以下のテキストを自然な日本語に翻訳してください。\n\n" := by
  refine ⟨?_, fun m ctx l => rfl, rfl, fun l hl => ?_⟩
  · unfold translateMessage
    have hguard : ¬ (detectLanguage messageText ≠ .ja ∧
        detectLanguage messageText ≠ .en ∧ detectLanguage messageText ≠ .pl) := by
      cases detectLanguage messageText <;> simp
    rw [if_neg hguard]
    cases hg : gemini (createTranslationPrompt messageText
      (getContext userId roomId posts) (detectLanguage messageText)) <;> simp [hg]
  · simp [promptHeader, hl]

/-- Witness for C2's amended theorem at a concrete input. -/
theorem translateMessage_one_call_witness :
    ((translateMessage (fun _ => .ok "T") "P1" "U1" none "Hello" []).geminiCalls
      = [createTranslationPrompt "Hello" (getContext "U1" none [])
          (detectLanguage "Hello")]) ∧
    promptHeader .en =
      "あなたはプロの通訳アシスタントです。以下のテキストを自然な日本語に翻訳してください。\n\n" :=
  ⟨(translateMessage_one_call (fun _ => .ok "T") "P1" "U1" none "Hello" []).1,
   (translateMessage_one_call (fun _ => .ok "T") "P1" "U1" none "Hello" []).2.2.2
     .en (by decide)⟩

/-- C2 counterexample to the claim as stated: a message detected as
`ja` triggers exactly ONE Model Client call, not one per target
language in `{en, pl}` (two). -/
theorem translateMessage_fanout_counterexample :
    detectLanguage "こんにちは" = .ja ∧
    (translateMessage (fun _ => .ok "T") "P1" "U1" none "こんにちは"
      []).geminiCalls.length = 1 ∧ (1 : Nat) ≠ 2 :=
  ⟨by decide, by rfl, by decide⟩

/-! ## C4: vote upsert keeps at most one row per (poll, voter) -/

/-- The `UNIQUE(poll_post_id, user_id)` invariant: at most one row per
vote key. -/
def atMostOnePerKey (tbl : List Answer) : Prop :=
  ∀ k : String × String, tbl.countP (fun r => decide (voteKey r = k)) ≤ 1

/-- The upsert's conflict update does not change a row's vote key. -/
lemma voteKey_upsert_update (a r : Answer) :
    voteKey (if voteKey r = voteKey a then
      { r with timestamp := a.timestamp, answer_value := a.answer_value } else r)
      = voteKey r := by
  split <;> rfl

/-- `answersUpsert` preserves the per-key row count for every key. -/
lemma countP_answersUpsert_conflict (a : Answer) (tbl : List Answer)
    (h : tbl.any (fun r => decide (voteKey r = voteKey a)) = true)
    (k : String × String) :
    (answersUpsert a tbl).countP (fun r => decide (voteKey r = k))
      = tbl.countP (fun r => decide (voteKey r = k)) := by
  unfold answersUpsert
  rw [if_pos h, List.countP_map]
  apply List.countP_congr
  intro r _
  simp [Function.comp, voteKey_upsert_update]

/-- C4.  The answers upsert keeps at most one stored row per
`(poll_post_id, user_id)`; recording a second vote from the same voter
on the same poll leaves exactly one row for that key, carrying the
second vote's answer value and timestamp. -/
theorem answersUpsert_idempotent_votes :
    (∀ a tbl, atMostOnePerKey tbl → atMostOnePerKey (answersUpsert a tbl)) ∧
    (∀ v1 v2 tbl, atMostOnePerKey tbl → voteKey v1 = voteKey v2 →
      ((answersUpsert v2 (answersUpsert v1 tbl)).countP
        (fun r => decide (voteKey r = voteKey v2)) = 1) ∧
      ∀ r ∈ answersUpsert v2 (answersUpsert v1 tbl), voteKey r = voteKey v2 →
        r.answer_value = v2.answer_value ∧ r.timestamp = v2.timestamp) := by
  have hcount1 : ∀ a tbl, atMostOnePerKey tbl →
      (answersUpsert a tbl).countP (fun r => decide (voteKey r = voteKey a)) = 1 := by
    intro a tbl hinv
    by_cases h : tbl.any (fun r => decide (voteKey r = voteKey a)) = true
    · rw [countP_answersUpsert_conflict a tbl h]
      have hpos : 0 < tbl.countP (fun r => decide (voteKey r = voteKey a)) := by
        rw [List.countP_pos_iff]
        obtain ⟨r, hr, hkr⟩ := List.any_eq_true.mp h
        exact ⟨r, hr, hkr⟩
      exact le_antisymm (hinv (voteKey a)) hpos
    · unfold answersUpsert
      rw [if_neg h, List.countP_append]
      have h0 : tbl.countP (fun r => decide (voteKey r = voteKey a)) = 0 := by
        rw [List.countP_eq_zero]
        exact fun r hr => List.any_eq_false.mp (Bool.eq_false_iff.mpr h) r hr
      simp [h0]
  have hpreserve : ∀ a tbl, atMostOnePerKey tbl → atMostOnePerKey (answersUpsert a tbl) := by
    intro a tbl hinv k
    by_cases h : tbl.any (fun r => decide (voteKey r = voteKey a)) = true
    · rw [countP_answersUpsert_conflict a tbl h]
      exact hinv k
    · unfold answersUpsert
      rw [if_neg h, List.countP_append]
      by_cases hk : voteKey a = k
      · have h0 : tbl.countP (fun r => decide (voteKey r = k)) = 0 := by
          rw [List.countP_eq_zero]
          intro r hr hkr
          exact List.any_eq_false.mp (Bool.eq_false_iff.mpr h) r hr (by simpa [hk] using hkr)
        simp [h0, hk]
      · have h1 : ([a].countP (fun r => decide (voteKey r = k))) = 0 := by
          simp [hk]
        rw [h1]
        simpa using hinv k
  refine ⟨hpreserve, fun v1 v2 tbl hinv hk => ?_⟩
  have hinv1 : atMostOnePerKey (answersUpsert v1 tbl) := hpreserve v1 tbl hinv
  have hc1 : (answersUpsert v1 tbl).countP
      (fun r => decide (voteKey r = voteKey v1)) = 1 := hcount1 v1 tbl hinv
  have hany2 : (answersUpsert v1 tbl).any
      (fun r => decide (voteKey r = voteKey v2)) = true := by
    rw [List.any_eq_true]
    have hpos : 0 < (answersUpsert v1 tbl).countP
        (fun r => decide (voteKey r = voteKey v2)) := by
      rw [← hk, hc1]
      exact Nat.zero_lt_one
    obtain ⟨r, hr, hkr⟩ := List.countP_pos_iff.mp hpos
    exact ⟨r, hr, hkr⟩
  constructor
  · rw [countP_answersUpsert_conflict v2 (answersUpsert v1 tbl) hany2, ← hk, hc1]
  · set t1 := answersUpsert v1 tbl with hT1
    clear_value t1
    intro r hr hkr
    unfold answersUpsert at hr
    rw [if_pos hany2] at hr
    obtain ⟨r0, _, hr0⟩ := List.mem_map.mp hr
    by_cases hk0 : voteKey r0 = voteKey v2
    · rw [if_pos hk0] at hr0
      rw [← hr0]
      exact ⟨rfl, rfl⟩
    · rw [if_neg hk0] at hr0
      exact absurd (hr0 ▸ hkr) hk0

/-- Witness for C4: two concrete votes from the same voter on the same
poll leave exactly one row, and it carries the second answer value. -/
theorem answersUpsert_idempotent_votes_witness :
    ((answersUpsert ⟨"A2", "T2", "P1", "U1", some "NG"⟩
        (answersUpsert ⟨"A1", "T1", "P1", "U1", some "OK"⟩ [])).countP
      (fun r => decide (voteKey r = voteKey ⟨"A2", "T2", "P1", "U1", some "NG"⟩)) = 1) := by
  have h := (answersUpsert_idempotent_votes.2
    ⟨"A1", "T1", "P1", "U1", some "OK"⟩ ⟨"A2", "T2", "P1", "U1", some "NG"⟩ []
    (fun k => by rw [List.countP_nil]; exact Nat.zero_le 1) rfl).1
  exact h

/-! ## C6: the signature gate of the ingestion webhook -/

/-- C6.  With the bypass flag unset: a missing `X-Line-Signature`
header yields a 400 with nothing enqueued; a failing HMAC check yields
a 401 with nothing enqueued; a passing check yields
`200 {"message":"ok"}` with every event sent to the queue. -/
theorem handleWebhook_signature_gate (hmacBase64 : String → String → String)
    (env : WebhookEnv) (body : String) (events : List WebhookEvent)
    (hbp : env.bypassLineValidation ≠ some "true") :
    (handleWebhook hmacBase64 env none body events
      = ⟨400, "Bad Request: X-Line-Signature header is missing.", [], []⟩) ∧
    (∀ sig, hmacBase64 env.channelSecret body ≠ sig →
      handleWebhook hmacBase64 env (some sig) body events
        = ⟨401, "Unauthorized: Invalid LINE signature.", [], []⟩) ∧
    (∀ sig, hmacBase64 env.channelSecret body = sig →
      (handleWebhook hmacBase64 env (some sig) body events).status = 200 ∧
      (handleWebhook hmacBase64 env (some sig) body events).bodyJson = okJson ∧
      (handleWebhook hmacBase64 env (some sig) body events).queued = events) := by
  refine ⟨?_, fun sig hne => ?_, fun sig heq => ?_⟩
  · simp [handleWebhook, hbp]
  · simp [handleWebhook, hbp, validateSignature, hne]
  · simp [handleWebhook, hbp, validateSignature, heq, webhookProcess]

/-- Witness for C6 at a concrete environment, signature and event list. -/
theorem handleWebhook_signature_gate_witness :
    (handleWebhook (fun _ _ => "SIG") ⟨none, "secret"⟩ none "body"
        [⟨"message", some "U1"⟩]
      = ⟨400, "Bad Request: X-Line-Signature header is missing.", [], []⟩) ∧
    (handleWebhook (fun _ _ => "SIG") ⟨none, "secret"⟩ (some "WRONG") "body"
        [⟨"message", some "U1"⟩]
      = ⟨401, "Unauthorized: Invalid LINE signature.", [], []⟩) ∧
    (handleWebhook (fun _ _ => "SIG") ⟨none, "secret"⟩ (some "SIG") "body"
        [⟨"message", some "U1"⟩]).queued = [⟨"message", some "U1"⟩] := by
  have h := handleWebhook_signature_gate (fun _ _ => "SIG") ⟨none, "secret"⟩ "body"
    [⟨"message", some "U1"⟩] (by simp)
  exact ⟨h.1, h.2.1 "WRONG" (by simp), (h.2.2 "SIG" rfl).2.2⟩

/-! ## Query-string parser lemmas -/

/-- A segment without `&` is returned whole. -/
lemma splitOnAmp_no_amp (cs : List Char) (h : '&' ∉ cs) : splitOnAmp cs = [cs] := by
  induction cs with
  | nil => rfl
  | cons c cs ih =>
    have hc : ¬ c = '&' := fun e => h (e ▸ List.mem_cons_self c cs)
    have hcs : '&' ∉ cs := fun m => h (List.mem_cons_of_mem c m)
    simp [splitOnAmp, hc, ih hcs]

/-- Splitting peels off an `&`-free prefix at its delimiter. -/
lemma splitOnAmp_amp_append (xs ys : List Char) (h : '&' ∉ xs) :
    splitOnAmp (xs ++ '&' :: ys) = xs :: splitOnAmp ys := by
  induction xs with
  | nil => simp [splitOnAmp]
  | cons c cs ih =>
    have hc : ¬ c = '&' := fun e => h (e ▸ List.mem_cons_self c cs)
    have hcs : '&' ∉ cs := fun m => h (List.mem_cons_of_mem c m)
    simp [splitOnAmp, hc, ih hcs]

/-- A segment without `=` is all key, with empty value. -/
lemma splitFirstEq_no_eq (cs : List Char) (h : '=' ∉ cs) : splitFirstEq cs = (cs, []) := by
  induction cs with
  | nil => rfl
  | cons c cs ih =>
    have hc : ¬ c = '=' := fun e => h (e ▸ List.mem_cons_self c cs)
    have hcs : '=' ∉ cs := fun m => h (List.mem_cons_of_mem c m)
    simp [splitFirstEq, hc, ih hcs]

/-- A segment splits at its first `=`. -/
lemma splitFirstEq_eq_append (xs ys : List Char) (h : '=' ∉ xs) :
    splitFirstEq (xs ++ '=' :: ys) = (xs, ys) := by
  induction xs with
  | nil => simp [splitFirstEq]
  | cons c cs ih =>
    have hc : ¬ c = '=' := fun e => h (e ▸ List.mem_cons_self c cs)
    have hcs : '=' ∉ cs := fun m => h (List.mem_cons_of_mem c m)
    simp [splitFirstEq, hc, ih hcs]

/-- `String.append` acts as list append on the character data. -/
lemma string_data_append (s t : String) : (s ++ t).data = s.data ++ t.data := rfl

/-- The bindings parsed from a three-field query string whose keys and
values are free of the delimiters. -/
lemma queryPairs_three (S k1 v1 k2 v2 k3 vid : String)
    (hS : S.data = (k1.data ++ '=' :: v1.data)
      ++ '&' :: ((k2.data ++ '=' :: v2.data) ++ '&' :: (k3.data ++ '=' :: vid.data)))
    (hk1 : '&' ∉ k1.data ∧ '=' ∉ k1.data) (hv1 : '&' ∉ v1.data)
    (hk2 : '&' ∉ k2.data ∧ '=' ∉ k2.data) (hv2 : '&' ∉ v2.data)
    (hk3 : '&' ∉ k3.data ∧ '=' ∉ k3.data) (hvid : '&' ∉ vid.data) :
    queryPairs S = [(k1, v1), (k2, v2), (k3, vid)] := by
  have hseg : ∀ k v : List Char, '&' ∉ k → '&' ∉ v → '&' ∉ (k ++ '=' :: v) := by
    intro k v hk hv hm
    rcases List.mem_append.mp hm with h | h
    · exact hk h
    · rcases List.mem_cons.mp h with h | h
      · exact absurd h (by decide)
      · exact hv h
  have hne : ∀ k v : List Char, (k ++ '=' :: v) ≠ [] := by
    intro k v h
    rcases List.append_eq_nil.mp h with ⟨_, h2⟩
    exact List.cons_ne_nil _ _ h2
  unfold queryPairs
  rw [hS, splitOnAmp_amp_append _ _ (hseg _ _ hk1.1 hv1),
    splitOnAmp_amp_append _ _ (hseg _ _ hk2.1 hv2),
    splitOnAmp_no_amp _ (hseg _ _ hk3.1 hvid)]
  rw [List.filter_cons_of_pos (by simp),
    List.filter_cons_of_pos (by simp),
    List.filter_cons_of_pos (by simp),
    List.filter_nil]
  simp only [List.map_cons, List.map_nil,
    splitFirstEq_eq_append _ _ hk1.2, splitFirstEq_eq_append _ _ hk2.2,
    splitFirstEq_eq_append _ _ hk3.2]

/-- The three fields parsed back from a vote-button action string, for
a post id free of the query delimiters. -/
lemma queryGet_vote_fields (ans id : String)
    (hans : ans = "OK" ∨ ans = "NG" ∨ ans = "N/A")
    (hid : ∀ c ∈ id.data, c ≠ '&' ∧ c ≠ '=') :
    queryGet ("action=answer&value=" ++ ans ++ ("&postId=" ++ id)) "action" = some "answer" ∧
    queryGet ("action=answer&value=" ++ ans ++ ("&postId=" ++ id)) "value" = some ans ∧
    queryGet ("action=answer&value=" ++ ans ++ ("&postId=" ++ id)) "postId" = some id := by
  have hidAmp : '&' ∉ id.data := fun m => (hid _ m).1 rfl
  have hp : queryPairs ("action=answer&value=" ++ ans ++ ("&postId=" ++ id))
      = [("action", "answer"), ("value", ans), ("postId", id)] := by
    have hva : '&' ∉ ans.data := by
      rcases hans with rfl | rfl | rfl <;> decide
    exact queryPairs_three _ "action" "answer" "value" ans "postId" id
      (by simp only [string_data_append, List.append_assoc, List.cons_append]; rfl)
      (by constructor <;> decide) (by decide) (by constructor <;> decide) hva
      (by constructor <;> decide) hidAmp
  unfold queryGet
  rw [hp]
  refine ⟨?_, ?_, ?_⟩ <;> simp [List.find?]

/-! ## C3: the vote wire contract between payload builder and dispatcher -/

/-- C3 (amended).  The poll reply payload carries exactly three choice
buttons whose postback data strings are
`action=answer&value=<OK|NG|N/A>&postId=<id>`, and for every truthy
(non-empty) voter id the dispatcher's postback handler parses exactly
these strings (keys `action`=`answer`, `value`, `postId`) and upserts
the vote. -/
theorem pollFlex_wire_contract (id baseUrl u answerId ts : String) (tbl : List Answer)
    (hid : ∀ c ∈ id.data, c ≠ '&' ∧ c ≠ '=') (hid0 : id ≠ "") (hu : u ≠ "") :
    ((createPollFlexMessage id baseUrl).choiceActions.map (fun a => a.data)
      = ["action=answer&value=OK&postId=" ++ id,
         "action=answer&value=NG&postId=" ++ id,
         "action=answer&value=N/A&postId=" ++ id]) ∧
    ∀ ans, ans = "OK" ∨ ans = "NG" ∨ ans = "N/A" →
      handlePostbackEvent (some u) ("action=answer&value=" ++ ans ++ ("&postId=" ++ id))
          answerId ts tbl
        = ⟨answersUpsert ⟨answerId, ts, id, u, some ans⟩ tbl, true, true⟩ := by
  refine ⟨rfl, fun ans hans => ?_⟩
  obtain ⟨hact, hval, hpid⟩ := queryGet_vote_fields ans id hans hid
  have hansne : ans ≠ "" := by rcases hans with rfl | rfl | rfl <;> decide
  unfold handlePostbackEvent
  rw [if_pos hact]
  rw [hval, hpid]
  simp [isTruthy, hansne, hid0, hu]

/-- Witness for C3's amended theorem at a concrete poll post id. -/
theorem pollFlex_wire_contract_witness :
    ((createPollFlexMessage "P1" "https://example.com").choiceActions.map (fun a => a.data)
      = ["action=answer&value=OK&postId=P1", "action=answer&value=NG&postId=P1",
         "action=answer&value=N/A&postId=P1"]) ∧
    handlePostbackEvent (some "U1") ("action=answer&value=" ++ "OK" ++ ("&postId=" ++ "P1"))
        "A1" "T1" []
      = ⟨answersUpsert ⟨"A1", "T1", "P1", "U1", some "OK"⟩ [], true, true⟩ := by
  have h := pollFlex_wire_contract "P1" "https://example.com" "U1" "A1" "T1" []
    (by decide) (by decide) (by decide)
  exact ⟨h.1, h.2 "OK" (Or.inl rfl)⟩

/-- C3 counterexample to the claim as stated: the payload's data
strings are NOT `action=vote&postId=<id>&answer=<...>`, and the
dispatcher does not record a vote from such a string. -/
theorem pollFlex_wire_format_counterexample :
    ((createPollFlexMessage "P1" "https://example.com").choiceActions.map (fun a => a.data)
      ≠ ["action=vote&postId=P1&answer=OK", "action=vote&postId=P1&answer=NG",
         "action=vote&postId=P1&answer=N/A"]) ∧
    handlePostbackEvent (some "U1") "action=vote&postId=P1&answer=OK" "A1" "T1" []
      = ⟨[], false, false⟩ := by
  constructor
  · decide
  · decide

/-! ## C5: missing vote fields -/

/-- C5 (amended).  `PollService.handlePollAnswer` rejects an action
string with unparseable/empty `postId` or `answer` with the error
`Invalid poll answer data.`; the queue dispatcher's own postback
handler, by contrast, silently skips recording (no error) when `value`
or `postId` is missing. -/
theorem voteParse_error_handling :
    (∀ u data answerId ts tbl,
      ¬ (isTruthy (queryGet data "postId") = true ∧
          isTruthy (queryGet data "answer") = true) →
      handlePollAnswer u data answerId ts tbl = .error "Invalid poll answer data.") ∧
    (∀ u data answerId ts tbl, queryGet data "action" = some "answer" →
      ¬ (isTruthy (queryGet data "value") = true ∧
          isTruthy (queryGet data "postId") = true) →
      handlePostbackEvent (some u) data answerId ts tbl = ⟨tbl, false, false⟩) := by
  constructor
  · intro u data answerId ts tbl h
    unfold handlePollAnswer
    rw [if_neg h]
  · intro u data answerId ts tbl hact h
    unfold handlePostbackEvent
    rw [if_pos hact]
    rcases eq_or_ne u "" with rfl | hu
    · rfl
    · dsimp only
      rw [if_neg hu]
      exact if_neg h

/-- Witness for C5's amended theorem at concrete malformed strings. -/
theorem voteParse_error_handling_witness :
    handlePollAnswer "U1" "action=answer&postId=P1" "A1" "T1" []
      = .error "Invalid poll answer data." ∧
    handlePostbackEvent (some "U1") "action=answer&postId=P1" "A1" "T1" []
      = ⟨[], false, false⟩ :=
  ⟨voteParse_error_handling.1 "U1" "action=answer&postId=P1" "A1" "T1" [] (by decide),
   voteParse_error_handling.2 "U1" "action=answer&postId=P1" "A1" "T1" [] (by decide)
     (by decide)⟩

/-- C5 counterexample to the claim as stated: a vote postback whose
answer value cannot be parsed is silently dropped by the dispatcher —
the table is unchanged, nothing is recorded, and no error of any kind
is raised (the handler's outcome type has no error channel). -/
theorem postback_missing_value_silently_dropped :
    handlePostbackEvent (some "U1") "action=answer&postId=P1" "A1" "T1" []
      = ⟨[], false, false⟩ := by
  decide

/-! ## Sortedness of the context queries -/

/-- Membership in an insertion is membership in the parts. -/
lemma mem_insertDesc (p x : Post) (l : List Post) :
    x ∈ insertDesc p l ↔ x = p ∨ x ∈ l := by
  induction l with
  | nil => simp [insertDesc]
  | cons q qs ih =>
    by_cases h : q.timestamp.data < p.timestamp.data
    · simp [insertDesc, h]
    · simp [insertDesc, h, ih, or_left_comm]

/-- Inserting into a descending-sorted list keeps it descending. -/
lemma pairwise_insertDesc (p : Post) (l : List Post)
    (h : l.Pairwise (fun a b => b.timestamp.data ≤ a.timestamp.data)) :
    (insertDesc p l).Pairwise (fun a b => b.timestamp.data ≤ a.timestamp.data) := by
  induction l with
  | nil => simp [insertDesc]
  | cons q qs ih =>
    obtain ⟨hq, hqs⟩ := List.pairwise_cons.mp h
    by_cases hlt : q.timestamp.data < p.timestamp.data
    · rw [insertDesc, if_pos hlt]
      refine List.pairwise_cons.mpr ⟨?_, h⟩
      intro x hx
      rcases List.mem_cons.mp hx with rfl | hx
      · exact le_of_lt hlt
      · exact le_trans (hq x hx) (le_of_lt hlt)
    · rw [insertDesc, if_neg hlt]
      refine List.pairwise_cons.mpr ⟨?_, ih hqs⟩
      intro x hx
      rcases (mem_insertDesc p x qs).mp hx with rfl | hx
      · exact le_of_not_lt hlt
      · exact hq x hx

/-- The sort returns a descending-sorted list. -/
lemma pairwise_sortDesc (l : List Post) :
    (sortByTimestampDesc l).Pairwise (fun a b => b.timestamp.data ≤ a.timestamp.data) := by
  unfold sortByTimestampDesc
  induction l with
  | nil => simp
  | cons a l ih => exact pairwise_insertDesc a _ ih

/-- The sort is a permutation at the level of membership. -/
lemma mem_sortDesc (l : List Post) (x : Post) :
    x ∈ sortByTimestampDesc l ↔ x ∈ l := by
  unfold sortByTimestampDesc
  induction l with
  | nil => simp
  | cons a l ih =>
    simp only [List.foldr_cons, List.mem_cons]
    rw [mem_insertDesc]
    rw [ih]

/-- In a pairwise-related list, every kept element relates to every
dropped one. -/
lemma pairwise_take_drop {R : Post → Post → Prop} {l : List Post}
    (h : l.Pairwise R) (n : Nat) :
    ∀ a ∈ l.take n, ∀ b ∈ l.drop n, R a b := by
  rw [← List.take_append_drop n l] at h
  exact (List.pairwise_append.mp h).2.2

/-! ## C9: conversation context — scope, size, order, rendering -/

/-- C9.  The conversation context is the 2 most recent posts of the
same room when the message is room-scoped, else the 2 most recent
room-less posts of the same user (the two histories are never mixed);
it is fetched newest-first (descending timestamp) and the prompt's
context block renders it reversed, i.e. oldest-first. -/
theorem getContext_spec (u : String) (posts : List Post) :
    (∀ r, r ≠ "" → ∀ p ∈ getContext u (some r) posts, p.room_id = some r) ∧
    (∀ p ∈ getContext u none posts, p.user_id = u ∧ p.room_id = none) ∧
    (∀ rid, (getContext u rid posts).length ≤ 2) ∧
    (∀ rid, (getContext u rid posts).Pairwise
      (fun a b => b.timestamp.data ≤ a.timestamp.data)) ∧
    (∀ r, r ≠ "" → ∀ q ∈ posts, q.room_id = some r →
      q ∉ getContext u (some r) posts →
      ∀ p ∈ getContext u (some r) posts, q.timestamp.data ≤ p.timestamp.data) ∧
    (∀ q ∈ posts, q.user_id = u → q.room_id = none →
      q ∉ getContext u none posts →
      ∀ p ∈ getContext u none posts, q.timestamp.data ≤ p.timestamp.data) ∧
    (∀ rid, ((getContext u rid posts).reverse).Pairwise
      (fun a b => a.timestamp.data ≤ b.timestamp.data)) ∧
    (∀ ctx : List Post, ctx ≠ [] → contextBlock ctx =
      "【会話の文脈】\n以下は過去のユーザーの発言です。代名詞や省略表現を翻訳する際の参考にしてください。\n\n"
        ++ renderTurns ctx.reverse ++ "\n") := by
  have hquery : ∀ (sel : Post → Bool) (lim : Nat),
      ((sortByTimestampDesc (posts.filter sel)).take lim).length ≤ lim ∧
      ((sortByTimestampDesc (posts.filter sel)).take lim).Pairwise
        (fun a b => b.timestamp.data ≤ a.timestamp.data) ∧
      (∀ p ∈ (sortByTimestampDesc (posts.filter sel)).take lim, sel p = true) ∧
      (∀ q ∈ posts, sel q = true →
        q ∉ (sortByTimestampDesc (posts.filter sel)).take lim →
        ∀ p ∈ (sortByTimestampDesc (posts.filter sel)).take lim,
          q.timestamp.data ≤ p.timestamp.data) := by
    intro sel lim
    refine ⟨List.length_take_le lim _, ?_, ?_, ?_⟩
    · exact (pairwise_sortDesc _).sublist (List.take_sublist lim _)
    · intro p hp
      have hmem := (mem_sortDesc _ p).mp (List.take_subset lim _ hp)
      exact (List.mem_filter.mp hmem).2
    · intro q hq hsel hnot p hp
      have hqs : q ∈ sortByTimestampDesc (posts.filter sel) :=
        (mem_sortDesc _ q).mpr (List.mem_filter.mpr ⟨hq, hsel⟩)
      rw [← List.take_append_drop lim (sortByTimestampDesc (posts.filter sel))] at hqs
      rcases List.mem_append.mp hqs with hin | hdrop
      · exact absurd hin hnot
      · exact pairwise_take_drop (pairwise_sortDesc _) lim p hp q hdrop
  have hroom : ∀ r, r ≠ "" →
      getContext u (some r) posts
        = (sortByTimestampDesc
            (posts.filter (fun p => decide (p.room_id = some r)))).take 2 := by
    intro r hr
    simp [getContext, findLatestPostsByRoomId, hr]
  have huser : ∀ rid, rid = none ∨ rid = some "" →
      getContext u rid posts
        = (sortByTimestampDesc
            (posts.filter (fun p => decide (p.user_id = u ∧ p.room_id = none)))).take 2 := by
    intro rid h
    rcases h with rfl | rfl <;> simp [getContext, findLatestPostsByUserId]
  refine ⟨?_, ?_, ?_, ?_, ?_, ?_, ?_, ?_⟩
  · intro r hr p hp
    rw [hroom r hr] at hp
    have := (hquery (fun p => decide (p.room_id = some r)) 2).2.2.1 p hp
    exact of_decide_eq_true this
  · intro p hp
    rw [huser none (Or.inl rfl)] at hp
    have := (hquery (fun p => decide (p.user_id = u ∧ p.room_id = none)) 2).2.2.1 p hp
    exact of_decide_eq_true this
  · intro rid
    rcases rid with _ | r
    · rw [huser none (Or.inl rfl)]
      exact (hquery _ 2).1
    · by_cases hr : r = ""
      · subst hr
        rw [huser (some "") (Or.inr rfl)]
        exact (hquery _ 2).1
      · rw [hroom r hr]
        exact (hquery _ 2).1
  · intro rid
    rcases rid with _ | r
    · rw [huser none (Or.inl rfl)]
      exact (hquery _ 2).2.1
    · by_cases hr : r = ""
      · subst hr
        rw [huser (some "") (Or.inr rfl)]
        exact (hquery _ 2).2.1
      · rw [hroom r hr]
        exact (hquery _ 2).2.1
  · intro r hr q hq hqr hnot p hp
    rw [hroom r hr] at hnot hp
    exact (hquery _ 2).2.2.2 q hq (decide_eq_true hqr) hnot p hp
  · intro q hq hqu hqr hnot p hp
    rw [huser none (Or.inl rfl)] at hnot hp
    exact (hquery _ 2).2.2.2 q hq (decide_eq_true ⟨hqu, hqr⟩) hnot p hp
  · intro rid
    rw [List.pairwise_reverse]
    rcases rid with _ | r
    · rw [huser none (Or.inl rfl)]
      exact (hquery _ 2).2.1
    · by_cases hr : r = ""
      · subst hr
        rw [huser (some "") (Or.inr rfl)]
        exact (hquery _ 2).2.1
      · rw [hroom r hr]
        exact (hquery _ 2).2.1
  · intro ctx hctx
    have : ctx.length > 0 := List.length_pos.mpr hctx
    simp [contextBlock, this]

/-- Witness for C9 at a concrete room-scoped table: the oldest of three
room posts is excluded from the context and is no newer than a kept
one. -/
theorem getContext_spec_witness :
    (⟨"p1", "2024-01-01T00:00:00Z", "U1", some "R1", some "a", 0, none⟩ :
        Post).timestamp.data ≤
      (⟨"p3", "2024-01-03T00:00:00Z", "U2", some "R1", some "c", 0, none⟩ :
        Post).timestamp.data := by
  have h := (getContext_spec "U1"
    [⟨"p1", "2024-01-01T00:00:00Z", "U1", some "R1", some "a", 0, none⟩,
     ⟨"p2", "2024-01-02T00:00:00Z", "U1", some "R1", some "b", 0, none⟩,
     ⟨"p3", "2024-01-03T00:00:00Z", "U2", some "R1", some "c", 0, none⟩]).2.2.2.2.1
  exact h "R1" (by decide)
    ⟨"p1", "2024-01-01T00:00:00Z", "U1", some "R1", some "a", 0, none⟩
    (by simp) rfl (by decide)
    ⟨"p3", "2024-01-03T00:00:00Z", "U2", some "R1", some "c", 0, none⟩
    (by decide)

/-! ## Behavior of the Gemini retry loop under all-transient failures -/

/-- One-step unfolding of the inner loop: a 503 failure with attempts
remaining sleeps the jitter delay and retries the same model. -/
lemma innerLoop_step503 (oracle : String → Nat → CallOutcome)
    (rand : String → Nat → ℚ) (m : String) (i k : Nat) (le : Option ApiError)
    (h : oracle m i = .httpError 503) :
    innerLoop oracle rand m i (k + 1 + 1) le
      = ((innerLoop oracle rand m (i + 1) (k + 1) (some ⟨some 503, m, i⟩)).1,
         ⟨m, i, .httpError 503, some (delay503 (rand m i))⟩ ::
           (innerLoop oracle rand m (i + 1) (k + 1) (some ⟨some 503, m, i⟩)).2) := by
  simp [innerLoop, h]

/-- One-step unfolding of the inner loop: a 500 failure with attempts
remaining sleeps the exponential backoff and retries the same model. -/
lemma innerLoop_step500 (oracle : String → Nat → CallOutcome)
    (rand : String → Nat → ℚ) (m : String) (i k : Nat) (le : Option ApiError)
    (h : oracle m i = .httpError 500) :
    innerLoop oracle rand m i (k + 1 + 1) le
      = ((innerLoop oracle rand m (i + 1) (k + 1) (some ⟨some 500, m, i⟩)).1,
         ⟨m, i, .httpError 500, some (delay500 i)⟩ ::
           (innerLoop oracle rand m (i + 1) (k + 1) (some ⟨some 500, m, i⟩)).2) := by
  simp [innerLoop, h]

/-- If every call on a model fails 500/503, the per-model loop consumes
all its attempts on that model and falls through with the error of the
last attempt as `lastError`. -/
lemma innerLoop_all_transient (oracle : String → Nat → CallOutcome)
    (rand : String → Nat → ℚ) (m : String)
    (h : ∀ j, oracle m j = .httpError 500 ∨ oracle m j = .httpError 503) :
    ∀ n i le, ∃ s, oracle m (i + n) = .httpError s ∧ (s = 500 ∨ s = 503) ∧
      (innerLoop oracle rand m i (n + 1) le).1
        = .doneLoop (some ⟨some s, m, i + n⟩) ∧
      (innerLoop oracle rand m i (n + 1) le).2.length = n + 1 ∧
      ∀ r ∈ (innerLoop oracle rand m i (n + 1) le).2, r.model = m := by
  intro n
  induction n with
  | zero =>
    intro i le
    rcases h i with h5 | h5
    · exact ⟨500, by simpa using h5, Or.inl rfl, by simp [innerLoop, h5],
        by simp [innerLoop, h5], by simp [innerLoop, h5]⟩
    · exact ⟨503, by simpa using h5, Or.inr rfl, by simp [innerLoop, h5],
        by simp [innerLoop, h5], by simp [innerLoop, h5]⟩
  | succ k ih =>
    intro i le
    have harith : i + 1 + k = i + (k + 1) := by omega
    rcases h i with h5 | h5
    · obtain ⟨s, hs1, hs2, hfst, hlen, hmod⟩ := ih (i + 1) (some ⟨some 500, m, i⟩)
      rw [harith] at hs1 hfst
      rw [innerLoop_step500 oracle rand m i k le h5]
      refine ⟨s, hs1, hs2, by simpa using hfst, by simpa using hlen, ?_⟩
      intro r hr
      rcases List.mem_cons.mp hr with rfl | hr
      · rfl
      · exact hmod r hr
    · obtain ⟨s, hs1, hs2, hfst, hlen, hmod⟩ := ih (i + 1) (some ⟨some 503, m, i⟩)
      rw [harith] at hs1 hfst
      rw [innerLoop_step503 oracle rand m i k le h5]
      refine ⟨s, hs1, hs2, by simpa using hfst, by simpa using hlen, ?_⟩
      intro r hr
      rcases List.mem_cons.mp hr with rfl | hr
      · rfl
      · exact hmod r hr

/-! ## C1: termination under all-transient failures -/

/-- C1 (amended).  When every attempt on every model fails with a
transient error (HTTP 500 or 503), `generateText` raises a terminal
error after exactly `retries` attempts, ALL on the first model
(`gemini-2.5-flash-lite`) — the loop rotates models only on 429, so it
never reaches the other three models — and the propagated error is the
one observed on the last attempt. -/
theorem generateText_transient_spec (oracle : String → Nat → CallOutcome)
    (rand : String → Nat → ℚ) (retries : Nat) (hret : 1 ≤ retries)
    (h : ∀ m j, oracle m j = .httpError 500 ∨ oracle m j = .httpError 503) :
    ∃ s, (s = 500 ∨ s = 503) ∧
      oracle "gemini-2.5-flash-lite" (retries - 1) = .httpError s ∧
      (generateText oracle rand retries).1
        = .thrown (some ⟨some s, "gemini-2.5-flash-lite", retries - 1⟩) ∧
      (generateText oracle rand retries).2.length = retries ∧
      ∀ r ∈ (generateText oracle rand retries).2,
        r.model = "gemini-2.5-flash-lite" := by
  obtain ⟨n, rfl⟩ : ∃ n, retries = n + 1 := ⟨retries - 1, by omega⟩
  obtain ⟨s, hs1, hs2, hfst, hlen, hmod⟩ :=
    innerLoop_all_transient oracle rand "gemini-2.5-flash-lite"
      (h "gemini-2.5-flash-lite") n 0 none
  have hs429 : ¬ (⟨some s, "gemini-2.5-flash-lite", 0 + n⟩ : ApiError).status
      = some 429 := by
    rcases hs2 with rfl | rfl <;> simp
  refine ⟨s, hs2, by simpa using hs1, ?_, ?_, ?_⟩
  · simp only [generateText, geminiModels, generateTextGo, hfst, hs429, if_false,
      Nat.zero_add, Nat.add_sub_cancel]
  · simp only [generateText, geminiModels, generateTextGo, hfst, hs429, if_false]
    exact hlen
  · intro r hr
    simp only [generateText, geminiModels, generateTextGo, hfst, hs429, if_false] at hr
    exact hmod r hr

/-- Witness for C1's amended theorem: with every call failing 503 and
the default `retries = 3`, the client stops after exactly 3 attempts. -/
theorem generateText_transient_spec_witness :
    (generateText (fun _ _ => .httpError 503) (fun _ _ => 0) 3).2.length = 3 := by
  obtain ⟨s, _, _, _, hlen, _⟩ := generateText_transient_spec
    (fun _ _ => .httpError 503) (fun _ _ => 0) 3 (by omega) (fun _ _ => Or.inr rfl)
  exact hlen

/-- C1 counterexample to the claim as stated: with every call failing
503, the terminal error is raised after 3 attempts — the retries of the
FIRST model only — not after `4 models × 3 retries = 12` attempts. -/
theorem generateText_transient_counterexample :
    (generateText (fun _ _ => .httpError 503) (fun _ _ => 0) 3).1
      = .thrown (some ⟨some 503, "gemini-2.5-flash-lite", 2⟩) ∧
    (generateText (fun _ _ => .httpError 503) (fun _ _ => 0) 3).2.length = 3 ∧
    (3 : Nat) ≠ 12 :=
  ⟨by decide, by rfl, by decide⟩

/-! ## C7: the backoff delays -/

/-- Bounds of the 503 jitter for a `Math.random` sample in `[0,1)`:
`Math.floor(q*3001)` ranges over `0..3000`, so the delay ranges over
`2000..5000` — including 5000 itself. -/
lemma delay503_bounds (q : ℚ) (h0 : 0 ≤ q) (h1 : q < 1) :
    2000 ≤ delay503 q ∧ delay503 q ≤ 5000 := by
  unfold delay503
  have hnn : (0 : ℤ) ≤ Int.floor (q * 3001) := Int.floor_nonneg.mpr (by positivity)
  have hlt : Int.floor (q * 3001) < 3001 := by
    rw [Int.floor_lt]
    push_cast
    calc q * 3001 < 1 * 3001 := by
          apply mul_lt_mul_of_pos_right h1
          norm_num
      _ = 3001 := by norm_num
  omega

/-- Every record of a per-model trace carries that model's name. -/
lemma innerLoop_trace_model (oracle : String → Nat → CallOutcome)
    (rand : String → Nat → ℚ) (m : String) :
    ∀ rem i le r, r ∈ (innerLoop oracle rand m i rem le).2 → r.model = m := by
  intro rem
  induction rem with
  | zero => intro i le r hr; simp [innerLoop] at hr
  | succ n ih =>
    intro i le r hr
    rcases ho : oracle m i with t | s | _
    · by_cases ht : t = "" <;> simp [innerLoop, ho, ht] at hr <;> simp [hr]
    · by_cases h429 : s = 429
      · simp [innerLoop, ho, h429] at hr
        simp [hr]
      · by_cases h503 : s = 503
        · subst h503
          rcases n with _ | k
          · simp [innerLoop, ho, h429] at hr
            simp [hr]
          · rw [innerLoop_step503 oracle rand m i k le ho] at hr
            rcases List.mem_cons.mp hr with rfl | hr
            · rfl
            · exact ih (i + 1) _ r hr
        · by_cases h500 : s = 500
          · subst h500
            rcases n with _ | k
            · simp [innerLoop, ho, h429, h503] at hr
              simp [hr]
            · rw [innerLoop_step500 oracle rand m i k le ho] at hr
              rcases List.mem_cons.mp hr with rfl | hr
              · rfl
              · exact ih (i + 1) _ r hr
          · simp [innerLoop, ho, h429, h503, h500] at hr
            simp [hr]
    · simp [innerLoop, ho] at hr
      simp [hr]

/-- Every delay in a per-model trace is the 503 jitter of that
attempt's random sample, or the 500 exponential backoff of that
attempt's index. -/
lemma innerLoop_delays (oracle : String → Nat → CallOutcome)
    (rand : String → Nat → ℚ) (m : String) :
    ∀ rem i le r, r ∈ (innerLoop oracle rand m i rem le).2 →
      ∀ d, r.delayAfter = some d →
        (r.outcome = .httpError 503 ∧ d = delay503 (rand m r.attempt)) ∨
        (r.outcome = .httpError 500 ∧ d = delay500 r.attempt) := by
  intro rem
  induction rem with
  | zero => intro i le r hr; simp [innerLoop] at hr
  | succ n ih =>
    intro i le r hr d hd
    rcases ho : oracle m i with t | s | _
    · by_cases ht : t = "" <;> simp [innerLoop, ho, ht] at hr <;>
        rw [hr] at hd <;> simp at hd
    · by_cases h429 : s = 429
      · simp [innerLoop, ho, h429] at hr
        rw [hr] at hd
        simp at hd
      · by_cases h503 : s = 503
        · subst h503
          rcases n with _ | k
          · simp [innerLoop, ho, h429] at hr
            rw [hr] at hd
            simp at hd
          · rw [innerLoop_step503 oracle rand m i k le ho] at hr
            rcases List.mem_cons.mp hr with rfl | hr
            · simp only [Option.some.injEq] at hd
              left
              exact ⟨rfl, hd.symm⟩
            · exact ih (i + 1) _ r hr d hd
        · by_cases h500 : s = 500
          · subst h500
            rcases n with _ | k
            · simp [innerLoop, ho, h429, h503] at hr
              rw [hr] at hd
              simp at hd
            · rw [innerLoop_step500 oracle rand m i k le ho] at hr
              rcases List.mem_cons.mp hr with rfl | hr
              · simp only [Option.some.injEq] at hd
                right
                exact ⟨rfl, hd.symm⟩
              · exact ih (i + 1) _ r hr d hd
          · simp [innerLoop, ho, h429, h503, h500] at hr
            rw [hr] at hd
            simp at hd
    · simp [innerLoop, ho] at hr
      rw [hr] at hd
      simp at hd

/-- Lifting `innerLoop_delays` through the model-rotation loop. -/
lemma generateTextGo_delays (oracle : String → Nat → CallOutcome)
    (rand : String → Nat → ℚ) (retries : Nat) :
    ∀ models le r, r ∈ (generateTextGo oracle rand retries models le).2 →
      ∀ d, r.delayAfter = some d →
        (r.outcome = .httpError 503 ∧ d = delay503 (rand r.model r.attempt)) ∨
        (r.outcome = .httpError 500 ∧ d = delay500 r.attempt) := by
  intro models
  induction models with
  | nil => intro le r hr; simp [generateTextGo] at hr
  | cons m rest ih =>
    intro le r hr d hd
    have hinner : r ∈ (innerLoop oracle rand m 0 retries le).2 →
        (r.outcome = .httpError 503 ∧ d = delay503 (rand r.model r.attempt)) ∨
        (r.outcome = .httpError 500 ∧ d = delay500 r.attempt) := by
      intro hmem
      have hm := innerLoop_trace_model oracle rand m retries 0 le r hmem
      rcases innerLoop_delays oracle rand m retries 0 le r hmem d hd with ⟨h1, h2⟩ | hh
      · exact Or.inl ⟨h1, by rw [hm]; exact h2⟩
      · exact Or.inr hh
    rcases hfst : (innerLoop oracle rand m 0 retries le).1 with t | e | le2
    · simp only [generateTextGo, hfst] at hr
      exact hinner hr
    · simp only [generateTextGo, hfst] at hr
      exact hinner hr
    · rcases le2 with _ | e
      · simp only [generateTextGo, hfst] at hr
        exact hinner hr
      · by_cases h429 : e.status = some 429
        · simp only [generateTextGo, hfst, h429, if_true, List.mem_append] at hr
          rcases hr with hr | hr
          · exact hinner hr
          · exact ih _ r hr d hd
        · simp only [generateTextGo, hfst, h429, if_false] at hr
          exact hinner hr

/-- C7 (amended).  With `Math.random` sampling in `[0,1)`, every wait
after a 503 failure with attempts remaining is an integer delay in the
CLOSED interval `[2000ms, 5000ms]` (5000 is attainable), and every wait
after a 500 failure is exactly `2^attempt * 1000` ms, attempt counted
from 0. -/
theorem generateText_delay_bounds (oracle : String → Nat → CallOutcome)
    (rand : String → Nat → ℚ) (retries : Nat)
    (hrand : ∀ m i, 0 ≤ rand m i ∧ rand m i < 1) :
    ∀ r ∈ (generateText oracle rand retries).2, ∀ d, r.delayAfter = some d →
      (r.outcome = .httpError 503 ∧ 2000 ≤ d ∧ d ≤ 5000) ∨
      (r.outcome = .httpError 500 ∧ d = 2 ^ r.attempt * 1000) := by
  intro r hr d hd
  rcases generateTextGo_delays oracle rand retries geminiModels none r hr d hd with
    ⟨h1, h2⟩ | ⟨h1, h2⟩
  · left
    refine ⟨h1, ?_⟩
    rw [h2]
    exact delay503_bounds _ (hrand r.model r.attempt).1 (hrand r.model r.attempt).2
  · right
    exact ⟨h1, h2⟩

/-- A scenario for C7: the first call 503-fails once, then succeeds. -/
def oracle503Once (m : String) (i : Nat) : CallOutcome :=
  if m = "gemini-2.5-flash-lite" ∧ i = 0 then .httpError 503 else .text "T"

/-- Witness for C7's amended theorem: with the sample `1/2`, the single
503 wait is within `[2000, 5000]`. -/
theorem generateText_delay_bounds_witness :
    2000 ≤ delay503 ((1 : ℚ)/2) ∧ delay503 ((1 : ℚ)/2) ≤ 5000 := by
  have htr : (generateText oracle503Once (fun _ _ => (1 : ℚ)/2) 3).2
      = [⟨"gemini-2.5-flash-lite", 0, .httpError 503, some (delay503 ((1 : ℚ)/2))⟩,
         ⟨"gemini-2.5-flash-lite", 1, .text "T", none⟩] := by
    simp [generateText, generateTextGo, innerLoop, oracle503Once, geminiModels]
  have hmem : (⟨"gemini-2.5-flash-lite", 0, .httpError 503,
      some (delay503 ((1 : ℚ)/2))⟩ : AttemptRec)
      ∈ (generateText oracle503Once (fun _ _ => (1 : ℚ)/2) 3).2 := by
    rw [htr]
    exact List.mem_cons_self _ _
  rcases generateText_delay_bounds oracle503Once (fun _ _ => (1 : ℚ)/2) 3
      (fun m i => ⟨by norm_num, by norm_num⟩) _ hmem _ rfl with ⟨_, hb⟩ | ⟨hout, _⟩
  · exact hb
  · exact absurd hout (by decide)

/-- The maximal jitter: at the sample `3000/3001` (a legitimate
`Math.random` value, it lies in `[0,1)`), the 503 delay is exactly
5000 ms. -/
lemma delay503_jitter_max : delay503 ((3000 : ℚ)/3001) = 5000 := by
  unfold delay503
  norm_num
  decide

/-- C7 counterexample to the claim as stated: the 503 jitter window is
NOT the half-open `[2000, 5000)` — a run whose random sample is
`3000/3001 ∈ [0,1)` waits exactly 5000 ms after its 503 failure. -/
theorem delay503_half_open_counterexample :
    (0 ≤ (3000 : ℚ)/3001 ∧ (3000 : ℚ)/3001 < 1) ∧
    ((generateText oracle503Once (fun _ _ => (3000 : ℚ)/3001) 3).2.map
      (fun r => r.delayAfter)) = [some 5000, none] ∧
    ¬ (5000 : Nat) < 5000 := by
  refine ⟨⟨by norm_num, by norm_num⟩, ?_, by omega⟩
  simp [generateText, generateTextGo, innerLoop, oracle503Once, geminiModels,
    delay503_jitter_max]

end LineRecorderBot
